import Mathlib

/-!
Verification of the stress-scoring core of a funding-market liquidity
dashboard.  The JavaScript source (static/app.js) is shallowly embedded:

* JS date-indexed series become lists of `Obs` records with `String` dates;
* JS numbers become real numbers (`ℝ`); a JS value that can be `null` or
  `NaN` becomes an `Option ℝ` (`none` = null/NaN);
* `alignByDate`, `mean`, `std`, `sigmoid`, `tailProbFromZ`,
  `computeBeginnerPlus`, `riskLabel` and the repo feature derivations of
  `renderCorePanels` are translated function by function.
-/

namespace FedLiquidity

open Real Filter

/-- A dated observation, as served by the series API: `{date, value}`.
The value type is a parameter because derived series may carry nullable
values. -/
structure Obs (α : Type) where
  date : String
  value : α
deriving Repr, DecidableEq

/-- A row of the inner join of two series: `{date, a, b}` as produced by
`alignByDate`. -/
structure AlignedRow (α β : Type) where
  date : String
  a : α
  b : β
deriving Repr, DecidableEq

/-- Lookup in the JS `Map` built by `new Map(seriesB.map(o => [o.date, o.value]))`:
when a date occurs several times in `B`, the last occurrence wins. -/
def mapLookup {β : Type} (B : List (Obs β)) (d : String) : Option β :=
  (B.reverse.find? (fun o => o.date == d)).map (fun o => o.value)

/-- `alignByDate(seriesA, seriesB)`: for each row of `A` in order, emit
`{date, a, b}` when the date is present in the map built from `B`, and
drop the row otherwise. -/
def alignByDate {α β : Type} (A : List (Obs α)) (B : List (Obs β)) :
    List (AlignedRow α β) :=
  A.filterMap (fun o => (mapLookup B o.date).map
    (fun bv => { date := o.date, a := o.value, b := bv }))

noncomputable section

/-- `mean(arr)`: sum of the values divided by the count.  In the
real-number model every list element is finite, so the JS
`Number.isFinite` filter is the identity. -/
def mean (xs : List ℝ) : ℝ := xs.sum / (xs.length : ℝ)

/-- `std(arr)`: sample standard deviation (divide by `n - 1`).  The JS
function returns `NaN` when fewer than two finite values exist, modelled
here as `none`. -/
def std (xs : List ℝ) : Option ℝ :=
  if xs.length < 2 then none
  else
    some (Real.sqrt
      (((xs.map (fun x => (x - mean xs) * (x - mean xs))).sum) /
        ((xs.length : ℝ) - 1)))

/-- The JS expression `x || d`: the default `d` is taken when `x` is falsy,
i.e. when it is `NaN` (here `none`) or `0`. -/
def jsOr (x : Option ℝ) (d : ℝ) : ℝ :=
  match x with
  | none => d
  | some v => if v = 0 then d else v

/-- `sigmoid(x) = 1 / (1 + Math.exp(-x))`. -/
def sigmoid (x : ℝ) : ℝ := 1 / (1 + Real.exp (-x))

/-- `tailProbFromZ(z, k)`: `t = |z| - k`, then
`Math.max(0, Math.min(1, sigmoid(2.2 * t)))`. -/
def tailProbFromZ (z k : ℝ) : ℝ :=
  max 0 (min 1 (sigmoid (2.2 * (|z| - k))))

/-- The clamp written in the specification: `clamp(x, lo, hi)`,
realised in the source as `Math.max(lo, Math.min(hi, x))`. -/
def clampSpec (x lo hi : ℝ) : ℝ := max lo (min hi x)

/-- The probability-combination rule of the Stress Combiner:
`pStress = 1 - (1 - pSpread) * (1 - pRepo)`. -/
def combineStress (pSpread pRepo : ℝ) : ℝ :=
  1 - (1 - pSpread) * (1 - pRepo)

/-- One row of `alignedForModel`: `{date, spread, repoVal, repoDelta1,
repoLogChg5}`.  The spread is always a number there (it is built from the
join of two rate series); the repo features are nullable. -/
structure FeatureRow where
  date : String
  spread : ℝ
  repoVal : ℝ
  repoDelta1 : Option ℝ
  repoLogChg5 : Option ℝ

/-- A scored time step: `{date, pStress, pSpread, pRepo, zSpread}`. -/
structure ScorePoint where
  date : String
  pStress : ℝ
  pSpread : ℝ
  pRepo : ℝ
  zSpread : ℝ

/-- The value returned by `computeBeginnerPlus`: `{points, latest}`. -/
structure BeginnerPlusResult where
  points : List ScorePoint
  latest : Option ScorePoint

/-- `spreadVals = alignedSpreadRepo.map(o => o.spread)`. -/
def spreadVals (rows : List FeatureRow) : List ℝ :=
  rows.map (fun o => o.spread)

/-- `repoVals = alignedSpreadRepo.map(o => o.repoLogChg5).filter(v => v !== null)`. -/
def repoVals (rows : List FeatureRow) : List ℝ :=
  (rows.map (fun o => o.repoLogChg5)).filterMap id

/-- `mS = mean(spreadVals)`. -/
def mS (rows : List FeatureRow) : ℝ := mean (spreadVals rows)

/-- `sS = std(spreadVals) || 1e-9`. -/
def sS (rows : List FeatureRow) : ℝ := jsOr (std (spreadVals rows)) 1e-9

/-- `mR = mean(repoVals)`. -/
def mR (rows : List FeatureRow) : ℝ := mean (repoVals rows)

/-- `sR = std(repoVals) || 1e-9`. -/
def sR (rows : List FeatureRow) : ℝ := jsOr (std (repoVals rows)) 1e-9

/-- The body of the `alignedSpreadRepo.map(o => ...)` closure inside
`computeBeginnerPlus`: z-score the spread, tail-transform it, default
`pRepo` to 0 when `repoLogChg5` is null, and combine. -/
def scoreRow (rows : List FeatureRow) (k : ℝ) (o : FeatureRow) : ScorePoint :=
  let zSpread := (o.spread - mS rows) / sS rows
  let pSpread := tailProbFromZ zSpread k
  let pRepo :=
    match o.repoLogChg5 with
    | none => 0
    | some v => tailProbFromZ ((v - mR rows) / sR rows) k
  { date := o.date
    pStress := combineStress pSpread pRepo
    pSpread := pSpread
    pRepo := pRepo
    zSpread := zSpread }

/-- `computeBeginnerPlus(alignedSpreadRepo, k)`: map every feature row to a
score point and take the last point (or null) as `latest`. -/
def computeBeginnerPlus (rows : List FeatureRow) (k : ℝ) : BeginnerPlusResult :=
  let points := rows.map (scoreRow rows k)
  { points := points, latest := points.getLast? }

/-- `riskLabel(p)` returns a `{label, cls}` record. -/
structure RiskBand where
  label : String
  cls : String
deriving Repr, DecidableEq

/-- `riskLabel(p)`: High for `p >= 0.80`, Elevated for `p >= 0.50`,
Normal otherwise. -/
def riskLabel (p : ℝ) : RiskBand :=
  if p ≥ 0.80 then { label := "High", cls := "danger" }
  else if p ≥ 0.50 then { label := "Elevated", cls := "warn" }
  else { label := "Normal", cls := "ok" }

/-- `repoLog = repoObs.map(o => ({date: o.date, value: Math.log1p(o.value)}))`. -/
def repoLog (repoObs : List (Obs ℝ)) : List (Obs ℝ) :=
  repoObs.map (fun o => { date := o.date, value := Real.log (1 + o.value) })

/-- `repoDelta1 = repoObs.map((o, i) => ...)`: 1-step difference of the
volume series; null at index 0. -/
def repoDelta1 (repoObs : List (Obs ℝ)) : List (Obs (Option ℝ)) :=
  repoObs.enum.map (fun x =>
    { date := x.2.date
      value :=
        if 1 ≤ x.1 then (repoObs.get? (x.1 - 1)).map (fun p => x.2.value - p.value)
        else none })

/-- `repoLogChg5 = repoLog.map((o, i) => ...)`: 5-step difference of the
log1p-transformed volume series; null at indices below 5. -/
def repoLogChg5 (repoObs : List (Obs ℝ)) : List (Obs (Option ℝ)) :=
  (repoLog repoObs).enum.map (fun x =>
    { date := x.2.date
      value :=
        if 5 ≤ x.1 then
          ((repoLog repoObs).get? (x.1 - 5)).map (fun p => x.2.value - p.value)
        else none })

end

theorem sigmoid_pos (x : ℝ) : 0 < sigmoid x := by
  unfold sigmoid
  positivity

theorem sigmoid_lt_one (x : ℝ) : sigmoid x < 1 := by
  unfold sigmoid
  rw [div_lt_one (by positivity)]
  linarith [Real.exp_pos (-x)]

theorem sigmoid_mono {x y : ℝ} (h : x ≤ y) : sigmoid x ≤ sigmoid y := by
  unfold sigmoid
  exact one_div_le_one_div_of_le (by positivity)
    (by linarith [Real.exp_le_exp.mpr (neg_le_neg h)])

theorem tailProbFromZ_eq_sigmoid (z k : ℝ) :
    tailProbFromZ z k = sigmoid (2.2 * (|z| - k)) := by
  unfold tailProbFromZ
  rw [min_eq_right (sigmoid_lt_one _).le, max_eq_right (sigmoid_pos _).le]

/-- C1: the Stress Combiner computes `1 - (1 - pSpread) * (1 - pRepo)`;
for inputs in `[0,1]` the result lies in `[0,1]`, is `0` iff both inputs
are `0`, is `1` iff at least one input is `1`, dominates
`max pSpread pRepo`, and is monotonically non-decreasing in each input. -/
theorem combineStress_spec :
    ∀ pSpread pRepo : ℝ, 0 ≤ pSpread → pSpread ≤ 1 → 0 ≤ pRepo → pRepo ≤ 1 →
      combineStress pSpread pRepo = 1 - (1 - pSpread) * (1 - pRepo) ∧
      0 ≤ combineStress pSpread pRepo ∧
      combineStress pSpread pRepo ≤ 1 ∧
      (combineStress pSpread pRepo = 0 ↔ pSpread = 0 ∧ pRepo = 0) ∧
      (combineStress pSpread pRepo = 1 ↔ pSpread = 1 ∨ pRepo = 1) ∧
      max pSpread pRepo ≤ combineStress pSpread pRepo ∧
      (∀ q, pSpread ≤ q → combineStress pSpread pRepo ≤ combineStress q pRepo) ∧
      (∀ q, pRepo ≤ q → combineStress pSpread pRepo ≤ combineStress pSpread q) := by
  intro a b ha0 ha1 hb0 hb1
  unfold combineStress
  refine ⟨rfl, ?_, ?_, ?_, ?_, ?_, ?_, ?_⟩
  · nlinarith [mul_nonneg ha0 hb0]
  · nlinarith [mul_nonneg (by linarith : (0:ℝ) ≤ 1 - a) (by linarith : (0:ℝ) ≤ 1 - b)]
  · constructor
    · intro h
      constructor
      · nlinarith [mul_nonneg (by linarith : (0:ℝ) ≤ 1 - a) hb0]
      · nlinarith [mul_nonneg ha0 (by linarith : (0:ℝ) ≤ 1 - b)]
    · rintro ⟨rfl, rfl⟩
      ring
  · constructor
    · intro h
      have hz : (1 - a) * (1 - b) = 0 := by linarith
      rcases mul_eq_zero.mp hz with h1 | h1
      · left; linarith
      · right; linarith
    · rintro (rfl | rfl) <;> ring
  · apply max_le
    · nlinarith [mul_nonneg (by linarith : (0:ℝ) ≤ 1 - a) hb0]
    · nlinarith [mul_nonneg ha0 (by linarith : (0:ℝ) ≤ 1 - b)]
  · intro q hq
    nlinarith [mul_nonneg (by linarith : (0:ℝ) ≤ q - a) (by linarith : (0:ℝ) ≤ 1 - b)]
  · intro q hq
    nlinarith [mul_nonneg (by linarith : (0:ℝ) ≤ q - b) (by linarith : (0:ℝ) ≤ 1 - a)]

/-- Witness for C1 at `pSpread = 1/2`, `pRepo = 1/3`. -/
theorem combineStress_spec_witness :
    ((0:ℝ) ≤ 1/2 ∧ (1/2:ℝ) ≤ 1 ∧ (0:ℝ) ≤ 1/3 ∧ (1/3:ℝ) ≤ 1) ∧
    0 ≤ combineStress (1/2) (1/3) :=
  ⟨by norm_num,
    (combineStress_spec (1/2) (1/3) (by norm_num) (by norm_num) (by norm_num)
      (by norm_num)).2.1⟩

/-- C4: `tailProbFromZ z k` equals the clamped sigmoid
`clamp(sigmoid(2.2 * (|z| - k)), 0, 1)`, and at `z = 0` it equals
`sigmoid(-2.2 * k)` exactly (the clamp never bites). -/
theorem tailProbFromZ_eq_clamp (z k : ℝ) :
    tailProbFromZ z k = clampSpec (sigmoid (2.2 * (|z| - k))) 0 1 ∧
    tailProbFromZ 0 k = sigmoid (-(2.2 * k)) := by
  constructor
  · rfl
  · rw [tailProbFromZ_eq_sigmoid]
    norm_num

theorem sigmoid_tendsto_one : Tendsto sigmoid atTop (nhds 1) := by
  show Tendsto (fun x : ℝ => 1 / (1 + Real.exp (-x))) atTop (nhds 1)
  have hden : Tendsto (fun x : ℝ => 1 + Real.exp (-x)) atTop (nhds (1 + 0)) :=
    tendsto_const_nhds.add Real.tendsto_exp_neg_atTop_nhds_zero
  have hone : Tendsto (fun _ : ℝ => (1:ℝ)) atTop (nhds 1) := tendsto_const_nhds
  have h := hone.div hden (by norm_num)
  have h2 : Tendsto (fun x : ℝ => 1 / (1 + Real.exp (-x))) atTop (nhds (1 / (1 + 0))) := h
  norm_num at h2
  exact h2.congr (fun x => (one_div _).symm)

theorem sigmoid_tendsto_zero : Tendsto sigmoid atBot (nhds 0) := by
  show Tendsto (fun x : ℝ => 1 / (1 + Real.exp (-x))) atBot (nhds 0)
  have hden : Tendsto (fun x : ℝ => 1 + Real.exp (-x)) atBot atTop := by
    apply tendsto_atTop_add_const_left atBot 1
    exact Real.tendsto_exp_atTop.comp tendsto_neg_atBot_atTop
  simpa [one_div] using hden.inv_tendsto_atTop

/-- C5: for fixed sensitivity `k` the tail probability is monotone in
`|z|`; it tends to 1 as `z` grows without bound (so `|z|` far above `k`),
and for a fixed `z` it tends to 0 as `k` grows without bound (so `|z|` far
below `k`). -/
theorem tailProbFromZ_monotone_limits :
    (∀ k z1 z2 : ℝ, |z1| ≤ |z2| → tailProbFromZ z1 k ≤ tailProbFromZ z2 k) ∧
    (∀ k : ℝ, Tendsto (fun z => tailProbFromZ z k) atTop (nhds 1)) ∧
    (∀ z : ℝ, Tendsto (fun k2 => tailProbFromZ z k2) atTop (nhds 0)) := by
  refine ⟨?_, ?_, ?_⟩
  · intro k z1 z2 h
    rw [tailProbFromZ_eq_sigmoid, tailProbFromZ_eq_sigmoid]
    exact sigmoid_mono (by nlinarith)
  · intro k
    have habs : Tendsto (fun z : ℝ => |z| - k) atTop atTop :=
      (tendsto_atTop_add_const_right atTop (-k) tendsto_abs_atTop_atTop).congr
        (fun z => (sub_eq_add_neg _ _).symm)
    have hmul : Tendsto (fun z : ℝ => 2.2 * (|z| - k)) atTop atTop :=
      habs.const_mul_atTop (by norm_num)
    exact (sigmoid_tendsto_one.comp hmul).congr
      (fun z => (tailProbFromZ_eq_sigmoid z k).symm)
  · intro z
    have hsub : Tendsto (fun k2 : ℝ => |z| - k2) atTop atBot :=
      (tendsto_atBot_add_const_left atTop |z| tendsto_neg_atTop_atBot).congr
        (fun x => (sub_eq_add_neg _ _).symm)
    have hmul : Tendsto (fun k2 : ℝ => 2.2 * (|z| - k2)) atTop atBot :=
      hsub.const_mul_atBot (by norm_num)
    exact (sigmoid_tendsto_zero.comp hmul).congr
      (fun k2 => (tailProbFromZ_eq_sigmoid z k2).symm)

/-- Witness for C5 at `z1 = 1`, `z2 = -2`, `k = 5/2`. -/
theorem tailProbFromZ_monotone_limits_witness :
    |(1:ℝ)| ≤ |(-2:ℝ)| ∧ tailProbFromZ 1 (5/2) ≤ tailProbFromZ (-2) (5/2) :=
  ⟨by norm_num, tailProbFromZ_monotone_limits.1 (5/2) 1 (-2) (by norm_num)⟩

/-- C10: on the empty input, `computeBeginnerPlus` returns an empty point
list and a null latest reading, for every sensitivity `k`. -/
theorem computeBeginnerPlus_empty (k : ℝ) :
    (computeBeginnerPlus [] k).points = [] ∧
    (computeBeginnerPlus [] k).latest = none := by
  constructor <;> rfl

/-- C9: `riskLabel` maps every probability to exactly one of the three
ordered bands, High on `[0.80, ∞)`, Elevated on `[0.50, 0.80)`, Normal on
`(-∞, 0.50)`; in particular `riskLabel 0.80` is High, `riskLabel 0.7999`
and `riskLabel 0.50` are Elevated, and `riskLabel 0.4999` is Normal. -/
theorem riskLabel_bands :
    (∀ p : ℝ, 0.80 ≤ p → riskLabel p = { label := "High", cls := "danger" }) ∧
    (∀ p : ℝ, 0.50 ≤ p → p < 0.80 →
      riskLabel p = { label := "Elevated", cls := "warn" }) ∧
    (∀ p : ℝ, p < 0.50 → riskLabel p = { label := "Normal", cls := "ok" }) ∧
    (riskLabel 0.80).label = "High" ∧
    (riskLabel 0.7999).label = "Elevated" ∧
    (riskLabel 0.50).label = "Elevated" ∧
    (riskLabel 0.4999).label = "Normal" := by
  refine ⟨?_, ?_, ?_, ?_, ?_, ?_, ?_⟩
  · intro p hp
    simp [riskLabel, hp]
  · intro p h1 h2
    rw [riskLabel, if_neg (by linarith), if_pos h1]
  · intro p hp
    rw [riskLabel, if_neg (by linarith), if_neg (by linarith)]
  · rw [riskLabel, if_pos (by norm_num)]
  · rw [riskLabel, if_neg (by norm_num), if_pos (by norm_num)]
  · rw [riskLabel, if_neg (by norm_num), if_pos (by norm_num)]
  · rw [riskLabel, if_neg (by norm_num), if_neg (by norm_num)]

theorem mapLookup_mem_dates {β : Type} {B : List (Obs β)} {d : String}
    {v : β} (h : mapLookup B d = some v) :
    d ∈ B.map (fun o => o.date) := by
  unfold mapLookup at h
  cases hf : B.reverse.find? (fun o => o.date == d) with
  | none => rw [hf] at h; simp at h
  | some o =>
      have hmem := List.mem_reverse.mp (List.mem_of_find?_eq_some hf)
      have hpred := List.find?_some hf
      rw [beq_iff_eq] at hpred
      exact List.mem_map.mpr ⟨o, hmem, hpred⟩

theorem mapLookup_isSome_of_mem {β : Type} {B : List (Obs β)} {d : String}
    (h : d ∈ B.map (fun o => o.date)) : (mapLookup B d).isSome := by
  obtain ⟨o, ho, hd⟩ := List.mem_map.mp h
  unfold mapLookup
  cases hf : B.reverse.find? (fun o => o.date == d) with
  | some p => simp
  | none =>
      have := List.find?_eq_none.mp hf o (List.mem_reverse.mpr ho)
      rw [beq_iff_eq] at this
      exact absurd hd this

theorem alignByDate_dates_sublist {α β : Type} (A : List (Obs α))
    (B : List (Obs β)) :
    List.Sublist ((alignByDate A B).map (fun r => r.date)) (A.map (fun o => o.date)) := by
  induction A with
  | nil => simp [alignByDate]
  | cons a tl ih =>
      rw [alignByDate, List.filterMap_cons]
      cases h : mapLookup B a.date with
      | none =>
          rw [Option.map_none']
          exact (show List.Sublist ((alignByDate tl B).map (fun r => r.date))
              (tl.map (fun o => o.date)) from ih).cons a.date
      | some bv =>
          rw [Option.map_some']
          exact (show List.Sublist ((alignByDate tl B).map (fun r => r.date))
              (tl.map (fun o => o.date)) from ih).cons₂ a.date

theorem alignByDate_mem {α β : Type} {A : List (Obs α)} {B : List (Obs β)}
    {r : AlignedRow α β} (h : r ∈ alignByDate A B) :
    ∃ a ∈ A, r.date = a.date ∧ ∃ v, mapLookup B a.date = some v := by
  obtain ⟨a, ha, hfa⟩ := List.mem_filterMap.mp h
  cases hm : mapLookup B a.date with
  | none => rw [hm, Option.map_none'] at hfa; exact absurd hfa (by simp)
  | some bv =>
      rw [hm, Option.map_some'] at hfa
      have hfa2 := Option.some.inj hfa
      exact ⟨a, ha, by rw [← hfa2], bv, hm⟩

/-- C3: for series `A`, `B` with pairwise-distinct dates in `A` (series are
date-indexed), the join emits at most `min |A| |B|` rows; the emitted date
sequence is a subsequence of `A`'s dates (so `A`'s relative order is
preserved); every emitted date occurs verbatim in both `A` and `B`; and
conversely every row of `A` whose date occurs in `B` is emitted. -/
theorem alignByDate_spec (α β : Type) (A : List (Obs α)) (B : List (Obs β))
    (hA : (A.map (fun o => o.date)).Nodup) :
    (alignByDate A B).length ≤ min A.length B.length ∧
    List.Sublist ((alignByDate A B).map (fun r => r.date)) (A.map (fun o => o.date)) ∧
    (∀ r ∈ alignByDate A B,
      r.date ∈ A.map (fun o => o.date) ∧ r.date ∈ B.map (fun o => o.date)) ∧
    (∀ a ∈ A, a.date ∈ B.map (fun o => o.date) →
      ∃ r ∈ alignByDate A B, r.date = a.date) := by
  have hsub := alignByDate_dates_sublist A B
  have hmemB : ∀ r ∈ alignByDate A B, r.date ∈ B.map (fun o => o.date) := by
    intro r hr
    obtain ⟨a, _, hdate, v, hv⟩ := alignByDate_mem hr
    rw [hdate]
    exact mapLookup_mem_dates hv
  refine ⟨?_, hsub, ?_, ?_⟩
  · apply le_min
    · have := hsub.length_le
      simpa using this
    · have hnodup : ((alignByDate A B).map (fun r => r.date)).Nodup :=
        hA.sublist hsub
      have hss : (alignByDate A B).map (fun r => r.date)
          ⊆ B.map (fun o => o.date) := by
        intro d hd
        obtain ⟨r, hr, hrd⟩ := List.mem_map.mp hd
        rw [← hrd]
        exact hmemB r hr
      have := (List.subperm_of_subset hnodup hss).length_le
      simpa using this
  · intro r hr
    refine ⟨?_, hmemB r hr⟩
    have : r.date ∈ (alignByDate A B).map (fun x => x.date) :=
      List.mem_map.mpr ⟨r, hr, rfl⟩
    exact hsub.subset this
  · intro a ha hmem
    have hsome := mapLookup_isSome_of_mem hmem
    obtain ⟨v, hv⟩ := Option.isSome_iff_exists.mp hsome
    refine ⟨{ date := a.date, a := a.value, b := v }, ?_, rfl⟩
    exact List.mem_filterMap.mpr ⟨a, ha, by rw [hv, Option.map_some']⟩

/-- Witness for C3 on concrete two-row series. -/
theorem alignByDate_spec_witness :
    (([⟨"d1", 1⟩, ⟨"d2", 2⟩] : List (Obs ℕ)).map
      (fun o => o.date)).Nodup ∧
    (alignByDate ([⟨"d1", 1⟩, ⟨"d2", 2⟩] : List (Obs ℕ))
        ([⟨"d2", 5⟩] : List (Obs ℕ))).length
      ≤ min ([⟨"d1", 1⟩, ⟨"d2", 2⟩] : List (Obs ℕ)).length
          ([⟨"d2", 5⟩] : List (Obs ℕ)).length :=
  ⟨by decide,
    (alignByDate_spec ℕ ℕ [⟨"d1", 1⟩, ⟨"d2", 2⟩] [⟨"d2", 5⟩]
      (by decide)).1⟩

theorem repoDelta1_get (repo : List (Obs ℝ)) (i : ℕ)
    (h : i < (repoDelta1 repo).length) (hi : i < repo.length) :
    ((repoDelta1 repo).get ⟨i, h⟩).value
      = if 1 ≤ i then
          (repo.get? (i - 1)).map (fun p => (repo.get ⟨i, hi⟩).value - p.value)
        else none := by
  simp [repoDelta1, List.get_eq_getElem, List.getElem_map, List.getElem_enum]

theorem repoLogChg5_get (repo : List (Obs ℝ)) (i : ℕ)
    (h : i < (repoLogChg5 repo).length) (hi : i < repo.length) :
    ((repoLogChg5 repo).get ⟨i, h⟩).value
      = if 5 ≤ i then
          ((repoLog repo).get? (i - 5)).map
            (fun p => Real.log (1 + (repo.get ⟨i, hi⟩).value) - p.value)
        else none := by
  simp [repoLogChg5, repoLog, List.get_eq_getElem, List.getElem_map,
    List.getElem_enum]

/-- C6: the 1-step delta series has the input's length, is null exactly at
index 0, and at index `i ≥ 1` equals `value[i] - value[i-1]`; the 5-step
log-change series has the input's length, is null exactly at indices
below 5, and at index `i ≥ 5` equals
`log(1 + value[i]) - log(1 + value[i-5])`. -/
theorem repo_features_spec (repo : List (Obs ℝ)) :
    (repoDelta1 repo).length = repo.length ∧
    (repoLogChg5 repo).length = repo.length ∧
    (∀ (i : ℕ) (h : i < (repoDelta1 repo).length),
      (((repoDelta1 repo).get ⟨i, h⟩).value = none ↔ i = 0)) ∧
    (∀ (i : ℕ) (hi : i < repo.length) (h1i : 1 ≤ i)
      (h : i < (repoDelta1 repo).length),
      ((repoDelta1 repo).get ⟨i, h⟩).value
        = some ((repo.get ⟨i, hi⟩).value
            - (repo.get ⟨i - 1, by omega⟩).value)) ∧
    (∀ (i : ℕ) (h : i < (repoLogChg5 repo).length),
      (((repoLogChg5 repo).get ⟨i, h⟩).value = none ↔ i < 5)) ∧
    (∀ (i : ℕ) (hi : i < repo.length) (h5i : 5 ≤ i)
      (h : i < (repoLogChg5 repo).length),
      ((repoLogChg5 repo).get ⟨i, h⟩).value
        = some (Real.log (1 + (repo.get ⟨i, hi⟩).value)
            - Real.log (1 + (repo.get ⟨i - 5, by omega⟩).value))) := by
  have hlen1 : (repoDelta1 repo).length = repo.length := by
    simp [repoDelta1]
  have hlen5 : (repoLogChg5 repo).length = repo.length := by
    simp [repoLogChg5, repoLog]
  refine ⟨hlen1, hlen5, ?_, ?_, ?_, ?_⟩
  · intro i h
    have hi : i < repo.length := hlen1 ▸ h
    rw [repoDelta1_get repo i h hi]
    constructor
    · intro hv
      by_contra h0
      have h1i : 1 ≤ i := Nat.one_le_iff_ne_zero.mpr h0
      rw [if_pos h1i, List.get?_eq_get (show i - 1 < repo.length by omega)]
        at hv
      simp at hv
    · intro h0
      subst h0
      rw [if_neg (by omega)]
  · intro i hi h1i h
    rw [repoDelta1_get repo i h hi, if_pos h1i,
      List.get?_eq_get (show i - 1 < repo.length by omega)]
    rfl
  · intro i h
    have hi : i < repo.length := hlen5 ▸ h
    rw [repoLogChg5_get repo i h hi]
    constructor
    · intro hv
      by_contra h0
      have h5i : 5 ≤ i := by omega
      rw [if_pos h5i, List.get?_eq_get
        (show i - 5 < (repoLog repo).length by simp [repoLog]; omega)] at hv
      simp at hv
    · intro h0
      rw [if_neg (by omega)]
  · intro i hi h5i h
    rw [repoLogChg5_get repo i h hi, if_pos h5i, List.get?_eq_get
      (show i - 5 < (repoLog repo).length by simp [repoLog]; omega)]
    simp [repoLog, List.get_eq_getElem, List.getElem_map]

/-- Witness for C6 on a concrete six-point volume series. -/
theorem repo_features_spec_witness :
    ((repoDelta1 [⟨"a", 1⟩, ⟨"b", 3⟩]).get
        ⟨1, by simp [repoDelta1]⟩).value = some ((3:ℝ) - 1) :=
  (repo_features_spec [⟨"a", 1⟩, ⟨"b", 3⟩]).2.2.2.1 1 (by simp)
    (by omega) (by simp [repoDelta1])

/-- C2: `computeBeginnerPlus` produces exactly one score point per input
feature row (every row of `alignedForModel` carries a numeric spread), in
the same order — the date sequence of the output equals the date sequence
of the input — and the latest reading is the last score point. -/
theorem computeBeginnerPlus_one_to_one (rows : List FeatureRow) (k : ℝ) :
    (computeBeginnerPlus rows k).points.length = rows.length ∧
    (computeBeginnerPlus rows k).points.map (fun p => p.date)
      = rows.map (fun o => o.date) ∧
    (computeBeginnerPlus rows k).latest
      = (computeBeginnerPlus rows k).points.getLast? := by
  refine ⟨?_, ?_, rfl⟩
  · simp [computeBeginnerPlus]
  · show (rows.map (scoreRow rows k)).map (fun p => p.date)
      = rows.map (fun o => o.date)
    rw [List.map_map]
    rfl

theorem std_nonneg {xs : List ℝ} {v : ℝ} (h : std xs = some v) : 0 ≤ v := by
  unfold std at h
  split at h
  · exact absurd h (by simp)
  · rw [← Option.some.inj h]
    exact Real.sqrt_nonneg _

/-- C7: when a feature series has fewer than two (finite) values, `std`
is undefined (`NaN`, modelled `none`) and the `|| 1e-9` guard substitutes
the positive epsilon `1e-9`; the guarded divisor is always positive, and
in that sparse case every scored row's `zSpread` is the genuine division
of the centred spread by `1e-9`, so the pipeline stays defined. -/
theorem std_epsilon_guard :
    (∀ xs : List ℝ, xs.length < 2 →
      std xs = none ∧ jsOr (std xs) 1e-9 = 1e-9) ∧
    (∀ xs : List ℝ, 0 < jsOr (std xs) 1e-9) ∧
    (∀ rows : List FeatureRow, rows.length < 2 →
      sS rows = 1e-9 ∧
      ∀ (k : ℝ) (i : ℕ) (hi : i < rows.length)
        (hp : i < (computeBeginnerPlus rows k).points.length),
        ((computeBeginnerPlus rows k).points.get ⟨i, hp⟩).zSpread
          = ((rows.get ⟨i, hi⟩).spread - mS rows) / 1e-9) := by
  have hguard : ∀ xs : List ℝ, xs.length < 2 →
      std xs = none ∧ jsOr (std xs) 1e-9 = 1e-9 := by
    intro xs h
    have hnone : std xs = none := by
      unfold std
      rw [if_pos h]
    exact ⟨hnone, by rw [hnone]; rfl⟩
  refine ⟨hguard, ?_, ?_⟩
  · intro xs
    cases h : std xs with
    | none => norm_num [jsOr]
    | some v =>
        by_cases hv : v = 0
        · norm_num [jsOr, hv]
        · simp only [jsOr, if_neg hv]
          exact lt_of_le_of_ne (std_nonneg h) (Ne.symm hv)
  · intro rows h
    have hlen : (spreadVals rows).length < 2 := by
      simpa [spreadVals] using h
    have hss : sS rows = 1e-9 := (hguard _ hlen).2
    refine ⟨hss, ?_⟩
    intro k i hi hp
    have hpt : (computeBeginnerPlus rows k).points.get ⟨i, hp⟩
        = scoreRow rows k (rows.get ⟨i, hi⟩) := by
      simp [computeBeginnerPlus, List.get_eq_getElem, List.getElem_map]
    rw [hpt]
    show ((rows.get ⟨i, hi⟩).spread - mS rows) / sS rows
      = ((rows.get ⟨i, hi⟩).spread - mS rows) / 1e-9
    rw [hss]

/-- Witness for C7 on the one-element series `[3]`. -/
theorem std_epsilon_guard_witness :
    ([(3:ℝ)].length < 2) ∧ std [(3:ℝ)] = none ∧
    jsOr (std [(3:ℝ)]) 1e-9 = 1e-9 :=
  ⟨by norm_num, (std_epsilon_guard.1 [3] (by norm_num)).1,
    (std_epsilon_guard.1 [3] (by norm_num)).2⟩

/-- C8: a feature row whose `repoLogChg5` is null is scored with
`pRepo = 0`; moreover a repo volume series of length 4 yields a
`repoLogChg5` series that is null at every index, so all score points
built from it have `pRepo = 0`. -/
theorem pRepo_null_default :
    (∀ (rows : List FeatureRow) (k : ℝ) (i : ℕ)
      (hi : i < rows.length)
      (hp : i < (computeBeginnerPlus rows k).points.length),
      (rows.get ⟨i, hi⟩).repoLogChg5 = none →
      ((computeBeginnerPlus rows k).points.get ⟨i, hp⟩).pRepo = 0) ∧
    (∀ repo : List (Obs ℝ), repo.length = 4 →
      ∀ (j : ℕ) (hj : j < (repoLogChg5 repo).length),
        ((repoLogChg5 repo).get ⟨j, hj⟩).value = none) := by
  constructor
  · intro rows k i hi hp hnull
    have hpt : (computeBeginnerPlus rows k).points.get ⟨i, hp⟩
        = scoreRow rows k (rows.get ⟨i, hi⟩) := by
      simp [computeBeginnerPlus, List.get_eq_getElem, List.getElem_map]
    rw [hpt]
    simp only [List.get_eq_getElem] at hnull
    simp [scoreRow, hnull]
  · intro repo hlen j hj
    have hj4 : j < 4 := by
      simpa [repoLogChg5, repoLog, hlen] using hj
    simp [repoLogChg5, List.get_eq_getElem, List.getElem_map,
      List.getElem_enum]
    omega

/-- Witness for C8: a single row with null `repoLogChg5`, and the
all-null 5-step feature of a length-4 volume series. -/
theorem pRepo_null_default_witness :
    (((computeBeginnerPlus [{ date := "d1", spread := 1, repoVal := 2,
                              repoDelta1 := none, repoLogChg5 := none }]
        2.5).points.get ⟨0, by simp [computeBeginnerPlus]⟩).pRepo = 0) ∧
    ((repoLogChg5 [⟨"a", 1⟩, ⟨"b", 2⟩, ⟨"c", 3⟩, ⟨"d", 4⟩]).get
        ⟨0, by simp [repoLogChg5, repoLog]⟩).value = none :=
  ⟨pRepo_null_default.1 _ 2.5 0 (by simp)
      (by simp [computeBeginnerPlus]) rfl,
    pRepo_null_default.2 [⟨"a", 1⟩, ⟨"b", 2⟩, ⟨"c", 3⟩, ⟨"d", 4⟩] rfl 0
      (by simp [repoLogChg5, repoLog])⟩

/-- Witness for C9 at concrete probabilities. -/
theorem riskLabel_bands_witness :
    (0.80 ≤ (0.9 : ℝ)) ∧
    riskLabel (0.9 : ℝ) = { label := "High", cls := "danger" } :=
  ⟨by norm_num, riskLabel_bands.1 0.9 (by norm_num)⟩

end FedLiquidity
